import Mathlib

/-!
Verification of the sliding-boat puzzle engine of QuasiBoats
(src/assets/quasiboats.py): the occupancy model (`Boat.get_cells`), the
path-blocking move validator (`Boat.can_move_to` / `Boat._is_pos_free`),
the solver's static collision test (`QuasiBoats._check_collision_static`),
the bounded breadth-first solvability search (`QuasiBoats.is_solvable`)
and the seeded puzzle generator (`QuasiBoats.new_game`).

Coordinates are embedded as `Int` (Python integers are unbounded and the
solver probes coordinate `-1`); lengths as `Nat`.  The Python identity
test `boat is self` in `_is_pos_free` is embedded by passing the list of
the *other* boats (each boat object occurs exactly once, by identity, in
`self.boats`).  Python's global `random` generator (a library external to
the repository) is abstracted as a deterministic stream of naturals
together with a cursor; `random.seed(s)` installs the stream determined
by the seed and resets the cursor, and every draw (`randint`, `choice`)
consumes exactly one stream element.
-/

namespace QuasiBoatsSpec

/-- Embeds the `Boat` class of quasiboats.py (fields relevant to the
engine; the color, image and drag fields play no role in game logic). -/
structure Boat where
  row : Int
  col : Int
  length : Nat
  is_horizontal : Bool
  is_player : Bool
deriving Repr, DecidableEq, Inhabited

/-- `Boat.get_cells`: the list of (row, col) cells occupied by the boat. -/
def Boat.get_cells (b : Boat) : List (Int × Int) :=
  (List.range b.length).map (fun (i : Nat) =>
    if b.is_horizontal then (b.row, b.col + (i : Int)) else (b.row + (i : Int), b.col))

/-- The cell set the boat would occupy at hypothetical position (r, c)
(the `new_cells_set` computed inside `Boat._is_pos_free`). -/
def Boat.cellsAt (b : Boat) (r c : Int) : List (Int × Int) :=
  (List.range b.length).map (fun (i : Nat) =>
    if b.is_horizontal then (r, c + (i : Int)) else (r + (i : Int), c))

/-- Membership of a cell in a cell list (the `cell in new_cells_set` test). -/
def cellMem (cell : Int × Int) (cells : List (Int × Int)) : Bool :=
  cells.any (fun c => decide (c = cell))

/-- `Boat._is_pos_free(self, row, col, all_boats)`: no cell of any *other*
boat lies in this boat's cell set at (row, col).  `others` stands for
`all_boats` minus `self` (excluded by the `boat is self` identity test). -/
def Boat.is_pos_free (b : Boat) (row col : Int) (others : List Boat) : Bool :=
  others.all (fun boat =>
    boat.get_cells.all (fun cell => !(cellMem cell (b.cellsAt row col))))

/-- One step of the `while curr != new: curr += step; check` path walk of
`Boat.can_move_to`, unrolled on the number of remaining steps. -/
def walkAux (check : Int → Bool) (cur step : Int) : Nat → Bool
  | 0 => true
  | Nat.succ n => check (cur + step) && walkAux check (cur + step) step n

/-- `Boat.can_move_to(self, new_row, new_col, grid_size, all_boats)`:
bounds check, then the path walk of the moving coordinate from its current
value to the target, testing `_is_pos_free` after every unit step. -/
def Boat.can_move_to (b : Boat) (new_row new_col grid_size : Int)
    (others : List Boat) : Bool :=
  if new_row < 0 || new_col < 0 then false
  else if b.is_horizontal then
    if new_col + b.length > grid_size || new_row ≥ grid_size then false
    else
      walkAux (fun c => b.is_pos_free b.row c others) b.col
        (if new_col > b.col then 1 else -1) (new_col - b.col).natAbs
  else
    if new_row + b.length > grid_size || new_col ≥ grid_size then false
    else
      walkAux (fun r => b.is_pos_free r b.col others) b.row
        (if new_row > b.row then 1 else -1) (new_row - b.row).natAbs

/-- The per-pair body of the `for j ...` loop of
`QuasiBoats._check_collision_static`: boat `b` probed at moving coordinate
`new_val` against boat `bj` whose moving coordinate in the search state is
`vj`.  Same orientation: interval overlap on the shared axis; different
orientation: rectangle (cell) intersection. -/
def staticPair (b : Boat) (new_val : Int) (bj : Boat) (vj : Int) : Bool :=
  let length : Int := b.length
  let is_h := b.is_horizontal
  let r1 := if is_h then b.row else new_val
  let c1 := if is_h then new_val else b.col
  let is_hj := bj.is_horizontal
  let r2 := if is_hj then bj.row else vj
  let c2 := if is_hj then vj else bj.col
  let l2 : Int := bj.length
  if is_h = is_hj then
    if (if is_h then decide (r1 = r2) else decide (c1 = c2)) then
      let start1 := if is_h then c1 else r1
      let start2 := if is_hj then c2 else r2
      decide (start1 < start2 + l2 ∧ start2 < start1 + length)
    else false
  else
    let rh := if is_h then r1 else r2
    let ch := if is_h then c1 else c2
    let lh : Int := if is_h then length else l2
    let rv := if is_hj then r1 else r2
    let cv := if is_hj then c1 else c2
    let lv2 : Int := if is_hj then length else l2
    decide (rv ≤ rh ∧ rh < rv + lv2 ∧ ch ≤ cv ∧ cv < ch + lh)

/-- `QuasiBoats._check_collision_static(boat_idx, new_val, state, boats,
grid_size)`: `True` when the probed single-step position is out of bounds
or overlaps some other boat at its current state coordinate. -/
def check_collision_static (boats : List Boat) (boat_idx : Nat) (new_val : Int)
    (state : List Int) (grid_size : Int) : Bool :=
  let b := boats.getD boat_idx default
  if new_val < 0 || new_val + b.length > grid_size then true
  else
    (List.range boats.length).any (fun j =>
      if boat_idx = j then false
      else staticPair (boats.getD boat_idx default) new_val (boats.getD j default) (state.getD j 0))

/-- The body of the solver's successor generation for one `(i, step)`
pair: if the probed move does not collide and the resulting state is
unvisited, append it to both the queue and the visited set. -/
def considerMove (boats : List Boat) (grid_size : Int) (state : List Int)
    (qv : List (List Int) × List (List Int)) (i : Nat) (step : Int) :
    List (List Int) × List (List Int) :=
  if check_collision_static boats i (state.getD i 0 + step) state grid_size then qv
  else
    if state.set i (state.getD i 0 + step) ∈ qv.2 then qv
    else (qv.1 ++ [state.set i (state.getD i 0 + step)],
          qv.2 ++ [state.set i (state.getD i 0 + step)])

/-- The two nested `for` loops of `QuasiBoats.is_solvable` that expand a
popped state: every boat index, each of the two unit steps `-1`, `+1`. -/
def expandState (boats : List Boat) (grid_size : Int) (state : List Int)
    (qv : List (List Int) × List (List Int)) : List (List Int) × List (List Int) :=
  (List.range boats.length).foldl (fun qv i =>
    [(-1 : Int), 1].foldl (fun qv step =>
      considerMove boats grid_size state qv i step) qv) qv

lemma considerMove_growth (boats : List Boat) (grid_size : Int) (state : List Int)
    (qv : List (List Int) × List (List Int)) (i : Nat) (step : Int) :
    ∃ d, (considerMove boats grid_size state qv i step).1.length = qv.1.length + d ∧
      (considerMove boats grid_size state qv i step).2.length = qv.2.length + d := by
  unfold considerMove
  split
  · exact ⟨0, by simp⟩
  · split
    · exact ⟨0, by simp⟩
    · exact ⟨1, by simp⟩

lemma foldl_len_growth {β : Type} (f : List (List Int) × List (List Int) → β →
      List (List Int) × List (List Int))
    (hf : ∀ a x, ∃ d, (f a x).1.length = a.1.length + d ∧ (f a x).2.length = a.2.length + d) :
    ∀ (l : List β) a, ∃ d, (l.foldl f a).1.length = a.1.length + d ∧
      (l.foldl f a).2.length = a.2.length + d := by
  intro l
  induction l with
  | nil => exact fun a => ⟨0, by simp⟩
  | cons x xs ih =>
    intro a
    obtain ⟨d1, h1, h2⟩ := hf a x
    obtain ⟨d2, h3, h4⟩ := ih (f a x)
    exact ⟨d1 + d2, by simp only [List.foldl_cons]; omega⟩

lemma expandState_growth (boats : List Boat) (grid_size : Int) (state : List Int)
    (qv : List (List Int) × List (List Int)) :
    ∃ d, (expandState boats grid_size state qv).1.length = qv.1.length + d ∧
      (expandState boats grid_size state qv).2.length = qv.2.length + d := by
  unfold expandState
  refine foldl_len_growth _ (fun a i => ?_) _ qv
  exact foldl_len_growth _ (fun a step => considerMove_growth boats grid_size state a i step) _ a

/-- The `while head < len(queue) and len(visited) < max_states` loop of
`QuasiBoats.is_solvable`, with `max_states = 500`.  Returns the result
together with the final value of `head` (the number of popped states).
Termination: each iteration either strictly grows the visited set (while
its size is below 500) or advances `head` toward the fixed queue end. -/
def solveLoop (boats : List Boat) (grid_size target_col : Int)
    (queue visited : List (List Int)) (head : Nat) : Bool × Nat :=
  if h : head < queue.length ∧ visited.length < 500 then
    if decide ((queue.get ⟨head, h.1⟩).headD 0 ≥ target_col) then (true, head + 1)
    else
      solveLoop boats grid_size target_col
        (expandState boats grid_size (queue.get ⟨head, h.1⟩) (queue, visited)).1
        (expandState boats grid_size (queue.get ⟨head, h.1⟩) (queue, visited)).2
        (head + 1)
  else (false, head)
termination_by (500 - visited.length, queue.length - head)
decreasing_by
  obtain ⟨d, hd1, hd2⟩ := expandState_growth boats grid_size (queue.get ⟨head, h.1⟩) (queue, visited)
  rw [Prod.lex_iff]
  simp only [hd1, hd2]
  rcases Nat.eq_zero_or_pos d with hd | hd
  · right
    constructor
    · simp [hd]
    · simp only [hd]
      omega
  · left
    omega

/-- Fuel-indexed mirror of `solveLoop` (structurally recursive, hence
kernel-computable; `solveLoop_eq_fuel` shows the two agree whenever the
fuel dominates the loop's termination measure). -/
def solveLoopF (boats : List Boat) (grid_size target_col : Int) :
    Nat → List (List Int) → List (List Int) → Nat → Bool × Nat
  | 0, _queue, _visited, head => (false, head)
  | fuel+1, queue, visited, head =>
    if h : head < queue.length ∧ visited.length < 500 then
      if decide ((queue.get ⟨head, h.1⟩).headD 0 ≥ target_col) then (true, head + 1)
      else
        solveLoopF boats grid_size target_col fuel
          (expandState boats grid_size (queue.get ⟨head, h.1⟩) (queue, visited)).1
          (expandState boats grid_size (queue.get ⟨head, h.1⟩) (queue, visited)).2
          (head + 1)
    else (false, head)

lemma solveLoop_eq_fuel (boats : List Boat) (grid_size target_col : Int) :
    ∀ (fuel : Nat) (queue visited : List (List Int)) (head : Nat),
    (500 - visited.length) + (queue.length - head) ≤ fuel →
    solveLoopF boats grid_size target_col fuel queue visited head =
      solveLoop boats grid_size target_col queue visited head := by
  intro fuel
  induction fuel with
  | zero =>
    intro queue visited head hm
    rw [solveLoop]
    have : ¬ (head < queue.length ∧ visited.length < 500) := by omega
    rw [dif_neg this]
    rfl
  | succ n ih =>
    intro queue visited head hm
    rw [solveLoop, solveLoopF]
    by_cases h : head < queue.length ∧ visited.length < 500
    · rw [dif_pos h, dif_pos h]
      by_cases hg : decide ((queue.get ⟨head, h.1⟩).headD 0 ≥ target_col) = true
      · rw [if_pos hg, if_pos hg]
      · rw [if_neg hg, if_neg hg]
        obtain ⟨d, hd1, hd2⟩ :=
          expandState_growth boats grid_size (queue.get ⟨head, h.1⟩) (queue, visited)
        by_cases hcap : visited.length + d ≤ 500
        · exact ih _ _ _ (by simp only [hd1, hd2]; omega)
        · obtain ⟨m, hn⟩ : ∃ m, n = m + 1 := ⟨n - 1, by omega⟩
          subst hn
          rw [solveLoop, solveLoopF]
          have hv' : ¬ (head + 1 < (expandState boats grid_size (queue.get ⟨head, h.1⟩)
              (queue, visited)).1.length ∧
              (expandState boats grid_size (queue.get ⟨head, h.1⟩)
                (queue, visited)).2.length < 500) := by
            simp only [hd1, hd2]
            omega
          rw [dif_neg hv', dif_neg hv']
    · rw [dif_neg h, dif_neg h]

/-- `QuasiBoats.is_solvable(boats, grid_size, exit_row)` instrumented with
the number of popped states (`exit_row` is accepted and unused, exactly as
in the source).  Boat 0 is the player; the search state is the tuple of
per-boat moving coordinates. -/
def solveRun (boats : List Boat) (grid_size exit_row : Int) : Bool × Nat :=
  let player_boat := boats.headD default
  let target_col : Int := grid_size - player_boat.length
  let start_state := boats.map (fun b => if b.is_horizontal then b.col else b.row)
  solveLoop boats grid_size target_col [start_state] [start_state] 0

/-- `QuasiBoats.is_solvable`: the Boolean verdict of the bounded BFS. -/
def is_solvable (boats : List Boat) (grid_size exit_row : Int) : Bool :=
  (solveRun boats grid_size exit_row).1

/-- Kernel-computable form of `solveRun` (fuel 500 dominates the initial
termination measure `(500 - 1) + (1 - 0)`). -/
def solveRunF (boats : List Boat) (grid_size exit_row : Int) : Bool × Nat :=
  let player_boat := boats.headD default
  let target_col : Int := grid_size - player_boat.length
  let start_state := boats.map (fun b => if b.is_horizontal then b.col else b.row)
  solveLoopF boats grid_size target_col 500 [start_state] [start_state] 0

lemma solveRun_eq_fuel (boats : List Boat) (grid_size exit_row : Int) :
    solveRun boats grid_size exit_row = solveRunF boats grid_size exit_row := by
  unfold solveRun solveRunF
  exact (solveLoop_eq_fuel _ _ _ 500 _ _ 0 (by simp)).symm

/-- Kernel-computable form of `is_solvable`. -/
def is_solvableF (boats : List Boat) (grid_size exit_row : Int) : Bool :=
  (solveRunF boats grid_size exit_row).1

lemma is_solvable_eq_fuel (boats : List Boat) (grid_size exit_row : Int) :
    is_solvable boats grid_size exit_row = is_solvableF boats grid_size exit_row := by
  unfold is_solvable is_solvableF
  rw [solveRun_eq_fuel]

/-- The set of values the moving coordinate takes during the path walk of
`can_move_to` from `cur` to `target`: every intermediate step and the
final value, excluding the starting value. -/
def betweenStep (cur target v : Int) : Prop :=
  (cur < v ∧ v ≤ target) ∨ (target ≤ v ∧ v < cur)

lemma walkAux_visits_up (check : Int → Bool) :
    ∀ (n : Nat) (cur : Int), walkAux check cur 1 n = true →
      ∀ v : Int, cur < v → v ≤ cur + n → check v = true := by
  intro n
  induction n with
  | zero => intro cur _ v h1 h2; omega
  | succ m ih =>
    intro cur hw v h1 h2
    rw [walkAux, Bool.and_eq_true] at hw
    by_cases hv : v = cur + 1
    · rw [hv]; exact hw.1
    · exact ih (cur + 1) hw.2 v (by omega) (by push_cast at h2 ⊢; omega)

lemma walkAux_visits_down (check : Int → Bool) :
    ∀ (n : Nat) (cur : Int), walkAux check cur (-1) n = true →
      ∀ v : Int, cur - n ≤ v → v < cur → check v = true := by
  intro n
  induction n with
  | zero => intro cur _ v h1 h2; omega
  | succ m ih =>
    intro cur hw v h1 h2
    rw [walkAux, Bool.and_eq_true] at hw
    by_cases hv : v = cur - 1
    · rw [hv]; exact (by simpa using hw.1)
    · refine ih (cur + (-1)) hw.2 v ?_ (by omega)
      push_cast at h1 ⊢
      omega

/-- C1 (path-blocking), general form: if some value `v` visited by the
walk of the moving coordinate (any intermediate step or the final one)
puts the boat's cell set in collision with another boat, `can_move_to`
returns `false` — even when the final cells themselves are free. -/
theorem c1_path_blocking (b : Boat) (others : List Boat) (gs new_row new_col v : Int)
    (hv : betweenStep (if b.is_horizontal then b.col else b.row)
      (if b.is_horizontal then new_col else new_row) v)
    (hblock : (if b.is_horizontal then b.is_pos_free b.row v others
      else b.is_pos_free v b.col others) = false) :
    b.can_move_to new_row new_col gs others = false := by
  unfold Boat.can_move_to
  cases hb : b.is_horizontal with
  | true =>
    simp only [hb, if_true] at hv hblock ⊢
    split
    · rfl
    · split
      · rfl
      · cases hw : walkAux (fun c => b.is_pos_free b.row c others) b.col
          (if new_col > b.col then 1 else -1) (new_col - b.col).natAbs with
        | false => rfl
        | true =>
          exfalso
          rcases hv with ⟨h1, h2⟩ | ⟨h1, h2⟩
          · rw [if_pos (by omega)] at hw
            have := walkAux_visits_up _ _ _ hw v h1 (by omega)
            rw [hblock] at this
            exact Bool.false_ne_true this
          · rw [if_neg (by omega)] at hw
            have := walkAux_visits_down _ _ _ hw v (by omega) h2
            rw [hblock] at this
            exact Bool.false_ne_true this
  | false =>
    simp only [hb, if_false, Bool.false_eq_true] at hv hblock ⊢
    split
    · rfl
    · split
      · rfl
      · cases hw : walkAux (fun r => b.is_pos_free r b.col others) b.row
          (if new_row > b.row then 1 else -1) (new_row - b.row).natAbs with
        | false => rfl
        | true =>
          exfalso
          rcases hv with ⟨h1, h2⟩ | ⟨h1, h2⟩
          · rw [if_pos (by omega)] at hw
            have := walkAux_visits_up _ _ _ hw v h1 (by omega)
            rw [hblock] at this
            exact Bool.false_ne_true this
          · rw [if_neg (by omega)] at hw
            have := walkAux_visits_down _ _ _ hw v (by omega) h2
            rw [hblock] at this
            exact Bool.false_ne_true this

/-- C1 witness: three collinear horizontal boats on row 0 of a 10-wide
grid — the mover at columns 0–1, blockers at columns 4–5 and 8–9.  Moving
the leftmost boat to column 6 (final cells 6–7 are free) is rejected,
because the walk passes column 4 where the mover would overlap the middle
boat. -/
theorem c1_path_blocking_witness :
    (Boat.mk 0 0 2 true true).can_move_to 0 6 10
      [Boat.mk 0 4 2 true false, Boat.mk 0 8 2 true false] = false :=
  c1_path_blocking (Boat.mk 0 0 2 true true)
    [Boat.mk 0 4 2 true false, Boat.mk 0 8 2 true false] 10 0 6 4
    (Or.inl (by decide)) (by decide)

/-- C2 counterexample: `can_move_to` performs no axis-lock check.  A
horizontal boat at (0,0) on an empty 4-grid asked to move to (1,0) — an
orthogonal (row) change — is accepted, where the claim requires rejection. -/
theorem c2_counterexample :
    (Boat.mk 0 0 2 true false).can_move_to 1 0 4 [] = true ∧
      (1 : Int) ≠ (Boat.mk 0 0 2 true false).row := by
  constructor <;> decide

/-- C2 amended: `can_move_to` does not reject a target whose orthogonal
coordinate differs from the boat's current one; its verdict is entirely
independent of the orthogonal target coordinate as long as that
coordinate lies in `[0, grid_size)` (outside that range the bounds check
rejects).  Axis lock is instead enforced by the callers, which always
pass the boat's current orthogonal coordinate. -/
theorem c2_no_axis_lock_in_validator (b : Boat) (others : List Boat)
    (gs x x' y : Int) (h1 : 0 ≤ x) (h2 : x < gs) (h3 : 0 ≤ x') (h4 : x' < gs) :
    (b.is_horizontal = true →
      b.can_move_to x y gs others = b.can_move_to x' y gs others) ∧
    (b.is_horizontal = false →
      b.can_move_to y x gs others = b.can_move_to y x' gs others) := by
  constructor
  · intro hb
    unfold Boat.can_move_to
    simp only [hb, if_true]
    have e1 : decide (x < 0) = false := by simp; omega
    have e2 : decide (x' < 0) = false := by simp; omega
    have e3 : decide (x ≥ gs) = false := by simp; omega
    have e4 : decide (x' ≥ gs) = false := by simp; omega
    rw [e1, e2, e3, e4]
  · intro hb
    unfold Boat.can_move_to
    simp only [hb, Bool.false_eq_true, if_false]
    have e1 : decide (x < 0) = false := by simp; omega
    have e2 : decide (x' < 0) = false := by simp; omega
    have e3 : decide (x ≥ gs) = false := by simp; omega
    have e4 : decide (x' ≥ gs) = false := by simp; omega
    rw [e1, e2, e3, e4]

/-- C2 amended witness: a horizontal length-2 boat at (0,0) on an empty
4-grid gets the same verdict for target rows 1 and 0 at target column 0. -/
theorem c2_no_axis_lock_witness :
    (Boat.mk 0 0 2 true false).can_move_to 1 0 4 [] =
      (Boat.mk 0 0 2 true false).can_move_to 0 0 4 [] :=
  (c2_no_axis_lock_in_validator (Boat.mk 0 0 2 true false) [] 4 1 0 0
    (by decide) (by decide) (by decide) (by decide)).1 rfl

lemma solveLoop_pops_le (boats : List Boat) (gs tc : Int) :
    ∀ (q v : List (List Int)) (h : Nat), q.length ≤ v.length →
      (solveLoop boats gs tc q v h).2 ≤ max h 500 := by
  intro q v h
  induction q, v, h using solveLoop.induct boats gs tc with
  | case1 q v h hg hgoal =>
    intro _
    rw [solveLoop, dif_pos hg, if_pos hgoal]
    simp only []
    omega
  | case2 q v h hg hgoal ih =>
    intro hqv
    rw [solveLoop, dif_pos hg, if_neg hgoal]
    obtain ⟨d, hd1, hd2⟩ := expandState_growth boats gs (q.get ⟨h, hg.1⟩) (q, v)
    have := ih (by simp only [hd1, hd2]; omega)
    omega
  | case3 q v h hg =>
    intro _
    rw [solveLoop, dif_neg hg]
    simp only []
    omega

/-- C6: the bounded BFS of `is_solvable`.
(i) Termination with a hard cap: the loop (started as `is_solvable`
starts it) pops at most 500 states in total, for every input — in the
embedding `solveLoop` is moreover a total function, so the search
terminates on every input.
(ii) The loop returns `true` the first time a popped state passes the
goal test (player coordinate `≥ grid_size - player_length`).
(iii) It returns `false` as soon as the queue is exhausted or the
visited set has reached the 500-state cap before a popped state passes
the goal test.  States are deduplicated by membership of the per-boat
coordinate tuple in the visited set (see `considerMove`). -/
theorem c6_bounded_bfs :
    (∀ (boats : List Boat) (gs er : Int), (solveRun boats gs er).2 ≤ 500)
    ∧ (∀ (boats : List Boat) (gs tc : Int) (q v : List (List Int)) (h : Nat)
        (hh : h < q.length) (hv : v.length < 500),
        decide ((q.get ⟨h, hh⟩).headD 0 ≥ tc) = true →
        (solveLoop boats gs tc q v h).1 = true)
    ∧ (∀ (boats : List Boat) (gs tc : Int) (q v : List (List Int)) (h : Nat),
        q.length ≤ h ∨ 500 ≤ v.length →
        (solveLoop boats gs tc q v h).1 = false) := by
  refine ⟨?_, ?_, ?_⟩
  · intro boats gs er
    have h := solveLoop_pops_le boats gs (gs - (boats.headD default).length)
      [boats.map (fun b => if b.is_horizontal then b.col else b.row)]
      [boats.map (fun b => if b.is_horizontal then b.col else b.row)] 0 (by simp)
    have h2 : (solveLoop boats gs (gs - (boats.headD default).length)
      [boats.map (fun b => if b.is_horizontal then b.col else b.row)]
      [boats.map (fun b => if b.is_horizontal then b.col else b.row)] 0).2 ≤ 500 := by
      omega
    simpa [solveRun] using h2
  · intro boats gs tc q v h hh hv hgoal
    rw [solveLoop, dif_pos ⟨hh, hv⟩, if_pos hgoal]
  · intro boats gs tc q v h hend
    rw [solveLoop, dif_neg (by omega)]

/-- C6 witness: concrete instances of all three parts — a run with the
empty boat list pops at most 500 states; a queue whose popped head `[2]`
passes the goal test with target 2 returns `true`; an empty queue returns
`false`. -/
theorem c6_bounded_bfs_witness :
    (solveRun [] 4 2).2 ≤ 500 ∧
      (solveLoop [] 4 2 [[2]] [] 0).1 = true ∧
      (solveLoop [] 4 2 [] [] 0).1 = false :=
  ⟨c6_bounded_bfs.1 [] 4 2,
   c6_bounded_bfs.2.1 [] 4 2 [[2]] [] 0 (by decide) (by decide) (by decide),
   c6_bounded_bfs.2.2 [] 4 2 [] [] 0 (Or.inl (by decide))⟩

/-- The player boat of the C7 counterexample: alone on a 501-wide grid,
on the exit row 250 = 501 / 2, at column 0. -/
def c7Boat : Boat := Boat.mk 250 0 2 true true

/-- The BFS queue (= visited set) after `n` single-boat expansions from
column 0: the states `[0], [1], ..., [n-1]`. -/
def c7Q (n : Nat) : List (List Int) := (List.range n).map (fun (k : Nat) => [(k : Int)])

lemma c7Q_length (n : Nat) : (c7Q n).length = n := by
  rw [c7Q, List.length_map, List.length_range]

lemma c7Q_succ (n : Nat) : c7Q (n + 1) = c7Q n ++ [[(n : Int)]] := by
  rw [c7Q, c7Q, List.range_succ, List.map_append, List.map_singleton]

lemma c7Q_get (n k : Nat) (hk : k < (c7Q n).length) :
    (c7Q n).get ⟨k, hk⟩ = [(k : Int)] := by
  unfold c7Q at hk ⊢
  rw [List.get_eq_getElem, List.getElem_map, List.getElem_range]

lemma c7_mem_Q (n : Nat) (x : Int) : [x] ∈ c7Q n ↔ 0 ≤ x ∧ x < n := by
  rw [c7Q, List.mem_map]
  constructor
  · rintro ⟨k, hk, he⟩
    rw [List.mem_range] at hk
    have hkx : (k : Int) = x := (List.cons.inj he).1
    omega
  · rintro ⟨h0, hn⟩
    have hk : x.toNat < n := by omega
    exact ⟨x.toNat, List.mem_range.mpr hk, by rw [Int.toNat_of_nonneg h0]⟩

lemma c7_collision (v : Int) (state : List Int) :
    check_collision_static [c7Boat] 0 v state 501 =
      (decide (v < 0) || decide (v + 2 > 501)) := by
  have hb : [c7Boat].getD 0 default = c7Boat := List.getD_cons_zero
  simp only [check_collision_static, hb]
  have hlen : ((c7Boat.length : Nat) : Int) = 2 := rfl
  rw [hlen]
  by_cases hv : (decide (v < 0) || decide (v + 2 > 501)) = true
  · rw [if_pos hv, hv]
  · rw [if_neg hv]
    rw [Bool.not_eq_true] at hv
    rw [hv]
    rw [show List.range [c7Boat].length = [0] from rfl, List.any_cons, List.any_nil]
    rw [if_pos rfl]
    rfl

lemma c7_consider_minus (h : Nat) (hh : h ≤ 498) :
    considerMove [c7Boat] 501 [(h : Int)] (c7Q (h + 1), c7Q (h + 1)) 0 (-1) =
      (c7Q (h + 1), c7Q (h + 1)) := by
  unfold considerMove
  rw [List.getD_cons_zero, List.set_cons_zero, c7_collision]
  rcases Nat.eq_zero_or_pos h with h0 | hpos
  · subst h0
    rw [if_pos]
    decide
  · rw [if_neg, if_pos]
    · rw [c7_mem_Q]
      omega
    · rw [Bool.or_eq_true_iff]
      simp only [decide_eq_true_eq]
      omega

lemma c7_consider_plus (h : Nat) (hh : h ≤ 498) :
    considerMove [c7Boat] 501 [(h : Int)] (c7Q (h + 1), c7Q (h + 1)) 0 1 =
      (c7Q (h + 2), c7Q (h + 2)) := by
  unfold considerMove
  rw [List.getD_cons_zero, List.set_cons_zero, c7_collision]
  rw [if_neg, if_neg]
  · show (c7Q (h + 1) ++ [[(h : Int) + 1]], c7Q (h + 1) ++ [[(h : Int) + 1]]) = _
    have hc : ((h : Int) + 1) = ((h + 1 : Nat) : Int) := by push_cast; ring
    rw [hc, ← c7Q_succ]
  · rw [c7_mem_Q]
    omega
  · rw [Bool.or_eq_true_iff]
    simp only [decide_eq_true_eq]
    omega

lemma c7_expand (h : Nat) (hh : h ≤ 498) :
    expandState [c7Boat] 501 [(h : Int)] (c7Q (h + 1), c7Q (h + 1)) =
      (c7Q (h + 2), c7Q (h + 2)) := by
  unfold expandState
  rw [show List.range [c7Boat].length = [0] from rfl]
  rw [List.foldl_cons, List.foldl_nil]
  rw [List.foldl_cons, List.foldl_cons, List.foldl_nil]
  rw [c7_consider_minus h hh, c7_consider_plus h hh]

lemma c7_loop (m : Nat) : ∀ h : Nat, h + m = 499 →
    solveLoop [c7Boat] 501 499 (c7Q (h + 1)) (c7Q (h + 1)) h = (false, 499) := by
  induction m with
  | zero =>
    intro h hm
    have h499 : h = 499 := by omega
    subst h499
    have hng : ¬ (499 < (c7Q (499 + 1)).length ∧ (c7Q (499 + 1)).length < 500) := by
      rw [c7Q_length]
      omega
    rw [solveLoop, dif_neg hng]
  | succ n ih =>
    intro h hm
    have hg : h < (c7Q (h + 1)).length ∧ (c7Q (h + 1)).length < 500 := by
      rw [c7Q_length]
      omega
    have hget : (c7Q (h + 1)).get ⟨h, hg.1⟩ = [(h : Int)] := c7Q_get _ _ _
    have hgoal : ¬ (decide (((c7Q (h + 1)).get ⟨h, hg.1⟩).headD 0 ≥ (499 : Int)) = true) := by
      rw [hget, List.headD_cons]
      simp only [decide_eq_true_eq]
      omega
    rw [solveLoop, dif_pos hg, if_neg hgoal]
    rw [hget, c7_expand h (by omega)]
    exact ih (h + 1) (by omega)

/-- C7 counterexample: the claim quantifies over *every* grid size `≥ 2`,
but the 500-state cap of the BFS defeats it on large grids: on a 501-wide
grid with the player boat alone at column 0 on the exit row 250, the
visited set reaches 500 states before the goal column 499 is popped, so
`is_solvable` returns `false` although the layout is trivially solvable. -/
theorem c7_counterexample :
    is_solvable [Boat.mk 250 0 2 true true] 501 250 = false := by
  show is_solvable [c7Boat] 501 250 = false
  unfold is_solvable solveRun
  have h0 : [c7Boat].map (fun b => if b.is_horizontal then b.col else b.row) =
      [(0 : Int)] := by
    simp [c7Boat]
  simp only [h0]
  have : [[(0 : Int)]] = c7Q (0 + 1) := by decide
  rw [this]
  have hloop := c7_loop 499 0 (by omega)
  have : (501 : Int) - ([c7Boat].headD default).length = 499 := by
    simp [c7Boat]
  rw [this, hloop]

/-- C7 amended: trivial solvability holds on every grid size the game can
actually reach (the UI clamps sizes to `[4,10]`; we prove the wider range
`[2,10]`, `2` being the player length): for every in-bounds player column
on the exit row, `is_solvable` applied to the singleton boat list returns
`true`.  The restriction to bounded grid sizes is forced by the 500-state
cap (see the counterexample at grid size 501). -/
theorem c7_trivial_solvability (gs c : Int)
    (h1 : 2 ≤ gs) (h2 : gs ≤ 10) (h3 : 0 ≤ c) (h4 : c ≤ gs - 2) :
    is_solvable [Boat.mk (gs / 2) c 2 true true] gs (gs / 2) = true := by
  rw [is_solvable_eq_fuel]
  interval_cases gs <;> interval_cases c <;> decide

/-- C7 amended witness: a 6-grid with the player alone at column 0 of
exit row 3 is reported solvable. -/
theorem c7_trivial_solvability_witness :
    is_solvable [Boat.mk 3 0 2 true true] 6 3 = true :=
  c7_trivial_solvability 6 0 (by decide) (by decide) (by decide) (by decide)

/-- A boat placed at moving coordinate `v`: the solver's search state
stores, for each boat, its `col` if horizontal and its `row` if vertical,
the orthogonal coordinate being fixed. -/
def positionBoat (b : Boat) (v : Int) : Boat :=
  if b.is_horizontal then { b with col := v } else { b with row := v }

/-- The boat list at the positions recorded in a search state. -/
def positionedBoats (boats : List Boat) (state : List Int) : List Boat :=
  (boats.zip state).map (fun p => positionBoat p.1 p.2)

/-- All cells of the boat lie inside the `[0,gs) × [0,gs)` grid. -/
def inBoundsBoat (gs : Int) (b : Boat) : Bool :=
  b.get_cells.all (fun p => decide (0 ≤ p.1 ∧ p.1 < gs ∧ 0 ≤ p.2 ∧ p.2 < gs))

/-- The cell sets of two boats are disjoint. -/
def disjointBoats (b1 b2 : Boat) : Bool :=
  b1.get_cells.all (fun p => !(cellMem p b2.get_cells))

/-- Every pair of distinct boats in the list has disjoint cell sets. -/
def pairwiseDisjoint : List Boat → Bool
  | [] => true
  | b :: rest => rest.all (fun b2 => disjointBoats b b2) && pairwiseDisjoint rest

lemma cellMem_iff_mem (p : Int × Int) (cells : List (Int × Int)) :
    cellMem p cells = true ↔ p ∈ cells := by
  unfold cellMem
  rw [List.any_eq_true]
  constructor
  · rintro ⟨q, hq, he⟩
    rw [decide_eq_true_eq] at he
    rw [← he]
    exact hq
  · intro hp
    exact ⟨p, hp, by rw [decide_eq_true_eq]⟩

lemma mem_get_cells (b : Boat) (p : Int × Int) :
    p ∈ b.get_cells ↔ ∃ i : Nat, i < b.length ∧
      p = (if b.is_horizontal then (b.row, b.col + (i : Int)) else (b.row + (i : Int), b.col)) := by
  unfold Boat.get_cells
  rw [List.mem_map]
  constructor
  · rintro ⟨i, hi, he⟩
    exact ⟨i, List.mem_range.mp hi, he.symm⟩
  · rintro ⟨i, hi, he⟩
    exact ⟨i, List.mem_range.mpr hi, he.symm⟩

lemma cellsAt_eq_get_cells (b : Boat) (r c : Int) :
    b.cellsAt r c = ({ b with row := r, col := c } : Boat).get_cells := rfl

lemma is_pos_free_false_iff (b : Boat) (r c : Int) (others : List Boat) :
    b.is_pos_free r c others = false ↔
      ∃ ob ∈ others, ∃ p, p ∈ ob.get_cells ∧ p ∈ b.cellsAt r c := by
  unfold Boat.is_pos_free
  rw [← Bool.not_eq_true, List.all_eq_true]
  push_neg
  constructor
  · rintro ⟨ob, hob, hfail⟩
    refine ⟨ob, hob, ?_⟩
    rw [Ne, List.all_eq_true] at hfail
    push_neg at hfail
    obtain ⟨p, hp, hmem⟩ := hfail
    rw [ne_eq, Bool.not_eq_true, Bool.not_eq_false'] at hmem
    exact ⟨p, hp, (cellMem_iff_mem _ _).mp hmem⟩
  · rintro ⟨ob, hob, p, hp1, hp2⟩
    refine ⟨ob, hob, ?_⟩
    rw [Ne, List.all_eq_true]
    push_neg
    refine ⟨p, hp1, ?_⟩
    rw [ne_eq, Bool.not_eq_true, Bool.not_eq_false']
    exact (cellMem_iff_mem _ _).mpr hp2

lemma positioned_length (boats : List Boat) (state : List Int)
    (hlen : state.length = boats.length) :
    (positionedBoats boats state).length = boats.length := by
  unfold positionedBoats
  rw [List.length_map, List.length_zip]
  omega

lemma positioned_getElem (boats : List Boat) (state : List Int) (j : Nat)
    (hlen : state.length = boats.length) (hj : j < (positionedBoats boats state).length) :
    (positionedBoats boats state)[j] =
      positionBoat (boats.getD j default) (state.getD j 0) := by
  have hjb : j < boats.length := by
    rw [positioned_length boats state hlen] at hj
    exact hj
  unfold positionedBoats
  rw [List.getElem_map, List.getElem_zip,
    List.getD_eq_getElem boats default hjb, List.getD_eq_getElem state 0 (by omega)]

lemma positioned_getD (boats : List Boat) (state : List Int) (j : Nat)
    (hlen : state.length = boats.length) (hj : j < boats.length) :
    (positionedBoats boats state).getD j default =
      positionBoat (boats.getD j default) (state.getD j 0) := by
  have hj2 : j < (positionedBoats boats state).length := by
    rw [positioned_length boats state hlen]
    exact hj
  rw [List.getD_eq_getElem _ default hj2, positioned_getElem boats state j hlen hj2]

lemma staticPair_iff_overlap (b1 b2 : Boat) (v1 v2 : Int)
    (hl1 : 0 < b1.length) (hl2 : 0 < b2.length) :
    staticPair b1 v1 b2 v2 = true ↔
      ∃ p, p ∈ (positionBoat b1 v1).get_cells ∧ p ∈ (positionBoat b2 v2).get_cells := by
  cases hb1 : b1.is_horizontal <;> cases hb2 : b2.is_horizontal <;>
    simp [staticPair, positionBoat, hb1, hb2, mem_get_cells]
  · constructor
    · rintro ⟨hc, h1, h2⟩
      exact ⟨max v1 v2, b1.col, ⟨(max v1 v2 - v1).toNat, by omega, by omega, rfl⟩,
        ⟨(max v1 v2 - v2).toNat, by omega, by omega, by omega⟩⟩
    · rintro ⟨a, c, ⟨i, hi, ha1, hc1⟩, ⟨j, hj, ha2, hc2⟩⟩
      omega
  · constructor
    · rintro ⟨h1, h2, h3, h4⟩
      exact ⟨b2.row, b1.col, ⟨(b2.row - v1).toNat, by omega, by omega, rfl⟩,
        ⟨(b1.col - v2).toNat, by omega, by omega, by omega⟩⟩
    · rintro ⟨a, c, ⟨i, hi, ha1, hc1⟩, ⟨j, hj, ha2, hc2⟩⟩
      omega
  · constructor
    · rintro ⟨h1, h2, h3, h4⟩
      exact ⟨b1.row, b2.col, ⟨(b2.col - v1).toNat, by omega, by omega, by omega⟩,
        ⟨(b1.row - v2).toNat, by omega, by omega, rfl⟩⟩
    · rintro ⟨a, c, ⟨i, hi, ha1, hc1⟩, ⟨j, hj, ha2, hc2⟩⟩
      omega
  · constructor
    · rintro ⟨hr, h1, h2⟩
      exact ⟨b1.row, max v1 v2, ⟨(max v1 v2 - v1).toNat, by omega, rfl, by omega⟩,
        ⟨(max v1 v2 - v2).toNat, by omega, by omega, by omega⟩⟩
    · rintro ⟨a, c, ⟨i, hi, ha1, hc1⟩, ⟨j, hj, ha2, hc2⟩⟩
      omega

lemma inBoundsBoat_corner (gs : Int) (b : Boat) (hbnd : inBoundsBoat gs b = true)
    (hl : 0 < b.length) : 0 ≤ b.row ∧ b.row < gs ∧ 0 ≤ b.col ∧ b.col < gs := by
  unfold inBoundsBoat at hbnd
  rw [List.all_eq_true] at hbnd
  have h0 : (if b.is_horizontal then (b.row, b.col + ((0 : Nat) : Int))
      else (b.row + ((0 : Nat) : Int), b.col)) ∈ b.get_cells :=
    (mem_get_cells b _).mpr ⟨0, hl, rfl⟩
  have h2 := hbnd _ h0
  rw [decide_eq_true_eq] at h2
  cases hbo : b.is_horizontal <;> rw [hbo] at h2 <;> simp at h2 <;> omega

lemma can_move_to_step_h (b : Boat) (nv gs : Int) (others : List Boat)
    (hb : b.is_horizontal = true) (hstep : (nv - b.col).natAbs = 1)
    (hr1 : 0 ≤ b.row) (hr2 : b.row < gs) :
    b.can_move_to b.row nv gs others =
      (decide (0 ≤ nv ∧ nv + (b.length : Int) ≤ gs) && b.is_pos_free b.row nv others) := by
  have hw1 : ∀ (check : Int → Bool) (cur s : Int), walkAux check cur s 1 = (check (cur + s) && true) :=
    fun _ _ _ => rfl
  have e1 : decide (b.row < 0) = false := decide_eq_false (by omega)
  have e2 : decide (b.row ≥ gs) = false := decide_eq_false (by omega)
  rw [Boat.can_move_to, hb]
  by_cases h1 : nv < 0
  · have e3 : decide (nv < 0) = true := decide_eq_true h1
    have e4 : decide (0 ≤ nv ∧ nv + (b.length : Int) ≤ gs) = false := decide_eq_false (by omega)
    rw [e1, e3, Bool.false_or, if_pos (Eq.refl true), e4, Bool.false_and]
  · have e3 : decide (nv < 0) = false := decide_eq_false h1
    rw [e1, e3, Bool.false_or, if_neg (show ¬ (false = true) by decide), if_pos (Eq.refl true)]
    by_cases h2 : nv + (b.length : Int) > gs
    · have e5 : decide (nv + (b.length : Int) > gs) = true := decide_eq_true h2
      have e4 : decide (0 ≤ nv ∧ nv + (b.length : Int) ≤ gs) = false := decide_eq_false (by omega)
      rw [e5, Bool.true_or, if_pos (Eq.refl true), e4, Bool.false_and]
    · have e5 : decide (nv + (b.length : Int) > gs) = false := decide_eq_false h2
      have e4 : decide (0 ≤ nv ∧ nv + (b.length : Int) ≤ gs) = true := decide_eq_true (by omega)
      rw [e5, e2, Bool.false_or, if_neg (show ¬ (false = true) by decide), hstep, hw1,
        Bool.and_true, e4, Bool.true_and]
      have hcase : nv = b.col + 1 ∨ nv = b.col - 1 := by omega
      rcases hcase with h3 | h3
      · rw [if_pos (show nv > b.col by omega)]
        rw [show b.col + (1 : Int) = nv by omega]
      · rw [if_neg (show ¬ (nv > b.col) by omega)]
        rw [show b.col + (-1 : Int) = nv by omega]

lemma can_move_to_step_v (b : Boat) (nv gs : Int) (others : List Boat)
    (hb : b.is_horizontal = false) (hstep : (nv - b.row).natAbs = 1)
    (hc1 : 0 ≤ b.col) (hc2 : b.col < gs) :
    b.can_move_to nv b.col gs others =
      (decide (0 ≤ nv ∧ nv + (b.length : Int) ≤ gs) && b.is_pos_free nv b.col others) := by
  have hw1 : ∀ (check : Int → Bool) (cur s : Int), walkAux check cur s 1 = (check (cur + s) && true) :=
    fun _ _ _ => rfl
  have e1 : decide (b.col < 0) = false := decide_eq_false (by omega)
  have e2 : decide (b.col ≥ gs) = false := decide_eq_false (by omega)
  rw [Boat.can_move_to, hb]
  by_cases h1 : nv < 0
  · have e3 : decide (nv < 0) = true := decide_eq_true h1
    have e4 : decide (0 ≤ nv ∧ nv + (b.length : Int) ≤ gs) = false := decide_eq_false (by omega)
    rw [e3, e1, Bool.true_or, if_pos (Eq.refl true), e4, Bool.false_and]
  · have e3 : decide (nv < 0) = false := decide_eq_false h1
    rw [e3, e1, Bool.false_or, if_neg (show ¬ (false = true) by decide),
      if_neg (show ¬ (false = true) by decide)]
    by_cases h2 : nv + (b.length : Int) > gs
    · have e5 : decide (nv + (b.length : Int) > gs) = true := decide_eq_true h2
      have e4 : decide (0 ≤ nv ∧ nv + (b.length : Int) ≤ gs) = false := decide_eq_false (by omega)
      rw [e5, Bool.true_or, if_pos (Eq.refl true), e4, Bool.false_and]
    · have e5 : decide (nv + (b.length : Int) > gs) = false := decide_eq_false h2
      have e4 : decide (0 ≤ nv ∧ nv + (b.length : Int) ≤ gs) = true := decide_eq_true (by omega)
      rw [e5, e2, Bool.false_or, if_neg (show ¬ (false = true) by decide), hstep, hw1,
        Bool.and_true, e4, Bool.true_and]
      have hcase : nv = b.row + 1 ∨ nv = b.row - 1 := by omega
      rcases hcase with h3 | h3
      · rw [if_pos (show nv > b.row by omega)]
        rw [show b.row + (1 : Int) = nv by omega]
      · rw [if_neg (show ¬ (nv > b.row) by omega)]
        rw [show b.row + (-1 : Int) = nv by omega]

lemma static_any_iff (boats : List Boat) (state : List Int) (i : Nat) (nv : Int)
    (hlen : state.length = boats.length) (hi : i < boats.length)
    (hpos : ∀ b ∈ boats, 0 < b.length) :
    ((List.range boats.length).any (fun j =>
      if i = j then false
      else staticPair (boats.getD i default) nv (boats.getD j default) (state.getD j 0)) = true)
    ↔ (∃ ob ∈ (positionedBoats boats state).eraseIdx i, ∃ p, p ∈ ob.get_cells ∧
         p ∈ (positionBoat (boats.getD i default) nv).get_cells) := by
  have hbi : 0 < (boats.getD i default).length := by
    refine hpos _ ?_
    rw [List.getD_eq_getElem boats default hi]
    exact List.getElem_mem hi
  rw [List.any_eq_true]
  constructor
  · rintro ⟨j, hjr, hj⟩
    rw [List.mem_range] at hjr
    by_cases hij : i = j
    · rw [if_pos hij] at hj
      exact absurd hj (by decide)
    · rw [if_neg hij] at hj
      have hbj : 0 < (boats.getD j default).length := by
        refine hpos _ ?_
        rw [List.getD_eq_getElem boats default hjr]
        exact List.getElem_mem hjr
      obtain ⟨p, hp1, hp2⟩ := (staticPair_iff_overlap _ _ _ _ hbi hbj).mp hj
      have hjp : j < (positionedBoats boats state).length := by
        rw [positioned_length boats state hlen]
        exact hjr
      refine ⟨positionBoat (boats.getD j default) (state.getD j 0), ?_, p, hp2, hp1⟩
      rw [List.mem_eraseIdx_iff_getElem]
      exact ⟨j, hjp, fun he => hij he.symm, by rw [positioned_getElem boats state j hlen hjp]⟩
  · rintro ⟨ob, hob, p, hp1, hp2⟩
    rw [List.mem_eraseIdx_iff_getElem] at hob
    obtain ⟨j, hjp, hji, hobeq⟩ := hob
    have hjr : j < boats.length := by
      rw [positioned_length boats state hlen] at hjp
      exact hjp
    have hbj : 0 < (boats.getD j default).length := by
      refine hpos _ ?_
      rw [List.getD_eq_getElem boats default hjr]
      exact List.getElem_mem hjr
    refine ⟨j, List.mem_range.mpr hjr, ?_⟩
    rw [if_neg (fun he => hji (Eq.symm he))]
    apply (staticPair_iff_overlap _ _ _ _ hbi hbj).mpr
    rw [positioned_getElem boats state j hlen hjp] at hobeq
    rw [← hobeq] at hp1
    exact ⟨p, hp2, hp1⟩

/-- C4: the solver's static single-step collision test and the
MoveValidator agree.  For every in-bounds, pairwise-disjoint positioned
configuration (positive lengths), every boat index and each unit step of
that boat along its axis, `_check_collision_static` reports a collision
or out-of-bounds exactly when `can_move_to` rejects the same single-step
move against the other boats at their current state coordinates: the two
tests return opposite Booleans.  (`staticPair_iff_overlap` is the heart:
the static test's same-orientation interval-overlap check and
different-orientation rectangle check each hold iff the two cell sets
intersect.) -/
theorem c4_collision_equiv (boats : List Boat) (state : List Int) (gs : Int)
    (i : Nat) (step : Int)
    (hlen : state.length = boats.length) (hi : i < boats.length)
    (hstep : step = 1 ∨ step = -1)
    (hpos : ∀ b ∈ boats, 0 < b.length)
    (hbb : ∀ b ∈ positionedBoats boats state, inBoundsBoat gs b = true)
    (hdisj : pairwiseDisjoint (positionedBoats boats state) = true) :
    check_collision_static boats i (state.getD i 0 + step) state gs =
      !(((positionedBoats boats state).getD i default).can_move_to
          (if ((positionedBoats boats state).getD i default).is_horizontal
            then ((positionedBoats boats state).getD i default).row
            else state.getD i 0 + step)
          (if ((positionedBoats boats state).getD i default).is_horizontal
            then state.getD i 0 + step
            else ((positionedBoats boats state).getD i default).col)
          gs ((positionedBoats boats state).eraseIdx i)) := by
  have hpi : (positionedBoats boats state).getD i default
      = positionBoat (boats.getD i default) (state.getD i 0) :=
    positioned_getD boats state i hlen hi
  have hbmem : boats.getD i default ∈ boats := by
    rw [List.getD_eq_getElem boats default hi]
    exact List.getElem_mem hi
  have hbl : 0 < (boats.getD i default).length := hpos _ hbmem
  have hip : i < (positionedBoats boats state).length := by
    rw [positioned_length boats state hlen]
    exact hi
  have hpmem : (positionedBoats boats state).getD i default ∈ positionedBoats boats state := by
    rw [List.getD_eq_getElem _ default hip]
    exact List.getElem_mem hip
  have hbnd := hbb _ hpmem
  have hiff := static_any_iff boats state i (state.getD i 0 + step) hlen hi hpos
  cases hbO : (boats.getD i default).is_horizontal
  · -- vertical boat
    have hposb : (positionedBoats boats state).getD i default
        = { boats.getD i default with row := state.getD i 0 } := by
      rw [hpi, positionBoat, if_neg (by rw [hbO]; decide)]
    rw [hposb] at hbnd
    have hcorner := inBoundsBoat_corner gs _ hbnd (by exact hbl)
    rw [hposb]
    rw [show ({ boats.getD i default with row := state.getD i 0 } : Boat).is_horizontal = false
      from hbO]
    rw [if_neg (show ¬ (false = true) by decide), if_neg (show ¬ (false = true) by decide)]
    rw [can_move_to_step_v ({ boats.getD i default with row := state.getD i 0 } : Boat)
      (state.getD i 0 + step) gs _ (by exact hbO)
      (by rw [show ({ boats.getD i default with row := state.getD i 0 } : Boat).row
            = state.getD i 0 from rfl]
          rcases hstep with h | h <;> rw [h] <;> omega)
      hcorner.2.2.1 hcorner.2.2.2]
    have hfree := is_pos_free_false_iff
      ({ boats.getD i default with row := state.getD i 0 } : Boat)
      (state.getD i 0 + step)
      ({ boats.getD i default with row := state.getD i 0 } : Boat).col
      ((positionedBoats boats state).eraseIdx i)
    have hcells : ({ boats.getD i default with row := state.getD i 0 } : Boat).cellsAt
        (state.getD i 0 + step) ({ boats.getD i default with row := state.getD i 0 } : Boat).col
        = (positionBoat (boats.getD i default) (state.getD i 0 + step)).get_cells := by
      rw [positionBoat, if_neg (by rw [hbO]; decide)]
      rfl
    rw [hcells] at hfree
    simp only [check_collision_static]
    by_cases hnv : 0 ≤ state.getD i 0 + step ∧
        state.getD i 0 + step + ((boats.getD i default).length : Int) ≤ gs
    · have hA : decide (state.getD i 0 + step < 0) = false := decide_eq_false (by omega)
      have hB : decide (state.getD i 0 + step + ((boats.getD i default).length : Int) > gs) = false :=
        decide_eq_false (by omega)
      rw [hA, hB, Bool.false_or, if_neg (show ¬ (false = true) by decide)]
      have hD : decide (0 ≤ state.getD i 0 + step ∧ state.getD i 0 + step +
          ((({ boats.getD i default with row := state.getD i 0 } : Boat).length : Nat) : Int) ≤ gs) = true :=
        decide_eq_true (by exact hnv)
      rw [hD, Bool.true_and]
      cases hf : ({ boats.getD i default with row := state.getD i 0 } : Boat).is_pos_free
          (state.getD i 0 + step)
          ({ boats.getD i default with row := state.getD i 0 } : Boat).col
          ((positionedBoats boats state).eraseIdx i)
      · rw [hiff.mpr (hfree.mp hf), Bool.not_false]
      · rw [Bool.not_true, Bool.eq_false_iff]
        intro hcon
        have hx := hfree.mpr (hiff.mp hcon)
        rw [hf] at hx
        exact absurd hx (by decide)
    · have hT : (decide (state.getD i 0 + step < 0) ||
          decide (state.getD i 0 + step + ((boats.getD i default).length : Int) > gs)) = true := by
        rw [Bool.or_eq_true_iff]
        simp only [decide_eq_true_eq]
        omega
      rw [hT, if_pos (Eq.refl true)]
      have hD : decide (0 ≤ state.getD i 0 + step ∧ state.getD i 0 + step +
          ((({ boats.getD i default with row := state.getD i 0 } : Boat).length : Nat) : Int) ≤ gs) = false :=
        decide_eq_false (by exact hnv)
      rw [hD, Bool.false_and, Bool.not_false]
  · -- horizontal boat
    have hposb : (positionedBoats boats state).getD i default
        = { boats.getD i default with col := state.getD i 0 } := by
      rw [hpi, positionBoat, if_pos hbO]
    rw [hposb] at hbnd
    have hcorner := inBoundsBoat_corner gs _ hbnd (by exact hbl)
    rw [hposb]
    rw [show ({ boats.getD i default with col := state.getD i 0 } : Boat).is_horizontal = true
      from hbO]
    rw [if_pos (Eq.refl true), if_pos (Eq.refl true)]
    rw [can_move_to_step_h ({ boats.getD i default with col := state.getD i 0 } : Boat)
      (state.getD i 0 + step) gs _ (by exact hbO)
      (by rw [show ({ boats.getD i default with col := state.getD i 0 } : Boat).col
            = state.getD i 0 from rfl]
          rcases hstep with h | h <;> rw [h] <;> omega)
      hcorner.1 hcorner.2.1]
    have hfree := is_pos_free_false_iff
      ({ boats.getD i default with col := state.getD i 0 } : Boat)
      ({ boats.getD i default with col := state.getD i 0 } : Boat).row
      (state.getD i 0 + step)
      ((positionedBoats boats state).eraseIdx i)
    have hcells : ({ boats.getD i default with col := state.getD i 0 } : Boat).cellsAt
        ({ boats.getD i default with col := state.getD i 0 } : Boat).row (state.getD i 0 + step)
        = (positionBoat (boats.getD i default) (state.getD i 0 + step)).get_cells := by
      rw [positionBoat, if_pos hbO]
      rfl
    rw [hcells] at hfree
    simp only [check_collision_static]
    by_cases hnv : 0 ≤ state.getD i 0 + step ∧
        state.getD i 0 + step + ((boats.getD i default).length : Int) ≤ gs
    · have hA : decide (state.getD i 0 + step < 0) = false := decide_eq_false (by omega)
      have hB : decide (state.getD i 0 + step + ((boats.getD i default).length : Int) > gs) = false :=
        decide_eq_false (by omega)
      rw [hA, hB, Bool.false_or, if_neg (show ¬ (false = true) by decide)]
      have hD : decide (0 ≤ state.getD i 0 + step ∧ state.getD i 0 + step +
          ((({ boats.getD i default with col := state.getD i 0 } : Boat).length : Nat) : Int) ≤ gs) = true :=
        decide_eq_true (by exact hnv)
      rw [hD, Bool.true_and]
      cases hf : ({ boats.getD i default with col := state.getD i 0 } : Boat).is_pos_free
          ({ boats.getD i default with col := state.getD i 0 } : Boat).row
          (state.getD i 0 + step)
          ((positionedBoats boats state).eraseIdx i)
      · rw [hiff.mpr (hfree.mp hf), Bool.not_false]
      · rw [Bool.not_true, Bool.eq_false_iff]
        intro hcon
        have hx := hfree.mpr (hiff.mp hcon)
        rw [hf] at hx
        exact absurd hx (by decide)
    · have hT : (decide (state.getD i 0 + step < 0) ||
          decide (state.getD i 0 + step + ((boats.getD i default).length : Int) > gs)) = true := by
        rw [Bool.or_eq_true_iff]
        simp only [decide_eq_true_eq]
        omega
      rw [hT, if_pos (Eq.refl true)]
      have hD : decide (0 ≤ state.getD i 0 + step ∧ state.getD i 0 + step +
          ((({ boats.getD i default with col := state.getD i 0 } : Boat).length : Nat) : Int) ≤ gs) = false :=
        decide_eq_false (by exact hnv)
      rw [hD, Bool.false_and, Bool.not_false]

/-- C4 witness: a 4-grid with the horizontal player at (2,0) and a
vertical length-3 yacht at (0,2); stepping the player right to column 1
makes its cells hit (2,2): the static test says collision (`true`), the
validator says the move is illegal (`false`). -/
theorem c4_collision_equiv_witness :
    check_collision_static [Boat.mk 2 0 2 true true, Boat.mk 0 2 3 false false] 0 1 [0, 0] 4 =
      !((Boat.mk 2 0 2 true true).can_move_to 2 1 4 [Boat.mk 0 2 3 false false]) :=
  c4_collision_equiv [Boat.mk 2 0 2 true true, Boat.mk 0 2 3 false false] [0, 0] 4 0 1
    (by decide) (by decide) (Or.inl rfl) (by decide) (by decide) (by decide)

/-- Abstract deterministic model of Python's global `random` generator: a
stream of naturals plus a cursor.  Every draw consumes exactly one stream
element; `random.seed(s)` installs the stream `seedFn s` with the cursor
reset to 0, which is what makes generation a function of the seed alone. -/
structure Rng where
  stream : Nat → Nat
  idx : Nat

/-- Consume one stream element. -/
def Rng.next (g : Rng) : Nat × Rng := (g.stream g.idx, { g with idx := g.idx + 1 })

/-- `random.randint(lo, hi)`: uniform on the inclusive range `[lo, hi]`
(every value of the range is reached by some stream; Python requires
`lo ≤ hi`, which holds at every call site under the grid-size bounds). -/
def Rng.randint (g : Rng) (lo hi : Int) : Int × Rng :=
  let p := g.next
  (lo + ((p.1 % (hi - lo + 1).toNat : Nat) : Int), p.2)

/-- `random.choice` on a list of naturals (one draw). -/
def Rng.choiceNat (g : Rng) (xs : List Nat) : Nat × Rng :=
  let p := g.next
  (xs.getD (p.1 % xs.length) 0, p.2)

/-- `random.choice` on a list of Booleans (one draw). -/
def Rng.choiceBool (g : Rng) (xs : List Bool) : Bool × Rng :=
  let p := g.next
  (xs.getD (p.1 % xs.length) true, p.2)

/-- Draw a candidate obstacle's column and row within the bounds implied
by its already-drawn length and orientation (the two `randint` calls of
the placement loop's branches, column first in both). -/
def mkCandidate (gs : Int) (len : Nat) (ho : Bool) (g : Rng) : Boat × Rng :=
  let c := if ho then g.randint 0 (gs - len) else g.randint 0 (gs - 1)
  let r := if ho then c.2.randint 0 (gs - 1) else c.2.randint 0 (gs - len)
  (⟨r.1, c.1, len, ho, false⟩, r.2)

/-- Draw one candidate obstacle: a length from {2,3}, an orientation, a
color (one stream element, always white), then column and row. -/
def drawBoat (gs : Int) (g : Rng) : Boat × Rng :=
  let d1 := g.choiceNat [2, 3]
  let d2 := d1.2.choiceBool [true, false]
  let d3 := d2.2.next
  mkCandidate gs d1.1 d2.1 d3.2

/-- One iteration body of the placement loop: draw a candidate and append
it iff its cell set meets no already-placed boat's. -/
def placeStep (gs : Int) (boats : List Boat) (g : Rng) : List Boat × Rng :=
  if boats.any (fun existing => existing.get_cells.any (fun cell =>
      cellMem cell (drawBoat gs g).1.get_cells))
  then (boats, (drawBoat gs g).2)
  else (boats ++ [(drawBoat gs g).1], (drawBoat gs g).2)

/-- The `while len(self.boats) < num_obstacles and attempts < max_attempts`
obstacle-placement loop of `QuasiBoats.new_game`, with the remaining
attempt budget as structural fuel (`fuel = 200 - attempts` throughout, so
`fuel = 0` is exactly `attempts = 200`). -/
def placeLoop (gs : Int) (num_obstacles : Nat) :
    Nat → List Boat → Nat → Rng → List Boat × Nat × Rng
  | 0, boats, attempts, g => (boats, attempts, g)
  | fuel + 1, boats, attempts, g =>
    if boats.length < num_obstacles then
      placeLoop gs num_obstacles fuel
        (placeStep gs boats g).1 (attempts + 1) (placeStep gs boats g).2
    else (boats, attempts, g)

/-- One generation attempt of `QuasiBoats.new_game`: place the player boat
(horizontal, length 2, on the exit row `gs / 2`, column drawn from
`[0, max 0 (gs - 2)]`), then fill with obstacles up to
`min (gs + 1) 10` *total* boats or 200 placement attempts.  Returns the
boat list, the placement attempts used, and the advanced generator. -/
def genAttempt (gs : Int) (g : Rng) : List Boat × Nat × Rng :=
  let exit_row := gs / 2
  let pc := g.randint 0 (max 0 (gs - 2))
  let player : Boat := ⟨exit_row, pc.1, 2, true, true⟩
  let num_obstacles := (min (gs + 1) 10).toNat
  placeLoop gs num_obstacles 200 [player] 0 pc.2

/-- The layout produced by the (k+1)-st generation attempt when the
attempts run consecutively on one stream, as they do in `new_game`. -/
def nthAttempt (gs : Int) (g : Rng) : Nat → List Boat × Nat × Rng
  | 0 => genAttempt gs g
  | k + 1 => nthAttempt gs (genAttempt gs g).2.2 k

/-- The `for gen_attempt in range(max_gen_attempts)` loop of
`QuasiBoats.new_game` (`max_gen_attempts = 5`), parameterized by the
solvability checker: keep the first layout the checker accepts; when the
budget runs out keep the last layout anyway and record `false` (the
source logs a warning at that point — the degraded outcome is observable
in the state, never raised). -/
def gen_attempts_loop (solver : List Boat → Int → Int → Bool) (gs : Int) :
    Nat → Rng → List Boat × Bool × Rng
  | 0, g => ([], false, g)
  | n + 1, g =>
    let a := genAttempt gs g
    if solver a.1 gs (gs / 2) then (a.1, true, a.2.2)
    else if n = 0 then (a.1, false, a.2.2)
    else gen_attempts_loop solver gs n a.2.2

/-- `QuasiBoats.new_game(seed)`: with an explicit seed, reseed the global
generator (discarding the ambient state `g0`) and run up to 5 generation
attempts; with `seed = None`, first draw the seed from the ambient
stream (`random.randint(1, 999999)`).  Returns the boat list, whether
the accepted layout passed `is_solvable`, and the advanced generator. -/
def new_game (seedFn : Int → Nat → Nat) (g0 : Rng) (seed : Option Int) (gs : Int) :
    List Boat × Bool × Rng :=
  match seed with
  | some s => gen_attempts_loop is_solvable gs 5 (Rng.mk (seedFn s) 0)
  | none =>
    let d := g0.randint 1 999999
    gen_attempts_loop is_solvable gs 5 (Rng.mk (seedFn d.1) 0)

/-- Kernel-computable form of `new_game` (the solver replaced by its
fuel-indexed equal). -/
def new_gameF (seedFn : Int → Nat → Nat) (g0 : Rng) (seed : Option Int) (gs : Int) :
    List Boat × Bool × Rng :=
  match seed with
  | some s => gen_attempts_loop is_solvableF gs 5 (Rng.mk (seedFn s) 0)
  | none =>
    let d := g0.randint 1 999999
    gen_attempts_loop is_solvableF gs 5 (Rng.mk (seedFn d.1) 0)

lemma new_game_eq_fuel (seedFn : Int → Nat → Nat) (g0 : Rng) (seed : Option Int) (gs : Int) :
    new_game seedFn g0 seed gs = new_gameF seedFn g0 seed gs := by
  have hsf : is_solvable = is_solvableF :=
    funext (fun a => funext (fun b => funext (fun c => is_solvable_eq_fuel a b c)))
  cases seed <;> simp only [new_game, new_gameF, hsf]

/-- C5: determinism of generation.  `new_game` reseeds the global
generator from the seed before drawing anything, so its result — the
number of boats and every boat's position, length, orientation and
player flag — depends only on `(seed, gridSize)` (and on the PRNG
algorithm `seedFn`, fixed for the program): two runs from arbitrary,
distinct ambient generator states give identical results. -/
theorem c5_determinism (seedFn : Int → Nat → Nat) (g g' : Rng) (s gs : Int) :
    new_game seedFn g (some s) gs = new_game seedFn g' (some s) gs := rfl

/-- C10: a fresh puzzle can already be won.  The player column is drawn
uniformly from `[0, gridSize - 2]`, whose upper end is the winning
column: for this seed-stream on a 4-grid the generator places the player
at column `4 - 2 = 2` on the exit row `4 / 2 = 2`, and the returned state
already satisfies the win condition `row = exitRow ∧ col + length ≥
gridSize` with zero moves made. -/
theorem c10_immediate_win :
    (((new_game (fun _ n => [2, 0,0,0,0,0, 0,0,0,0,1, 0,0,0,0,3, 0,0,0,2,0].getD n 0)
        (Rng.mk (fun _ => 0) 0) (some 1) 4).1.headD default).is_player = true) ∧
    (((new_game (fun _ n => [2, 0,0,0,0,0, 0,0,0,0,1, 0,0,0,0,3, 0,0,0,2,0].getD n 0)
        (Rng.mk (fun _ => 0) 0) (some 1) 4).1.headD default).col = 4 - 2) ∧
    (((new_game (fun _ n => [2, 0,0,0,0,0, 0,0,0,0,1, 0,0,0,0,3, 0,0,0,2,0].getD n 0)
        (Rng.mk (fun _ => 0) 0) (some 1) 4).1.headD default).row = 4 / 2) ∧
    (((new_game (fun _ n => [2, 0,0,0,0,0, 0,0,0,0,1, 0,0,0,0,3, 0,0,0,2,0].getD n 0)
        (Rng.mk (fun _ => 0) 0) (some 1) 4).1.headD default).col +
      (((new_game (fun _ n => [2, 0,0,0,0,0, 0,0,0,0,1, 0,0,0,0,3, 0,0,0,2,0].getD n 0)
        (Rng.mk (fun _ => 0) 0) (some 1) 4).1.headD default).length : Int) ≥ 4) := by
  rw [new_game_eq_fuel]
  refine ⟨by decide, by decide, by decide, by decide⟩

/-- C8 counterexample: the placement loop stops when the *total* boat
count (player included) reaches `min(gridSize + 1, 10)`, not the
obstacle count — `len(self.boats) < num_obstacles` counts the player.
On a 4-grid with this stream the loop stops after 4 accepted obstacles
(4 of the 200 attempts used, so the budget is not the reason), while the
claim demands `min(4 + 1, 10) = 5` obstacle boats. -/
theorem c8_counterexample :
    ((genAttempt 4 (Rng.mk (fun n =>
        [0, 1,1,0,2,0, 1,1,0,3,0, 0,0,0,0,0, 1,0,0,1,3].getD (n % 21) 0) 0)).1.countP
      (fun b => !b.is_player) = 4) ∧
    ((genAttempt 4 (Rng.mk (fun n =>
        [0, 1,1,0,2,0, 1,1,0,3,0, 0,0,0,0,0, 1,0,0,1,3].getD (n % 21) 0) 0)).2.1 = 4) ∧
    (4 : Nat) ≠ (min ((4 : Int) + 1) 10).toNat := by
  refine ⟨by decide, by decide, by decide⟩


def playerInvB (gs : Int) : List Boat → Bool
  | [] => false
  | p :: rest => p.is_player && p.is_horizontal && decide (p.length = 2) &&
      decide (p.row = gs / 2) && rest.all (fun b => !b.is_player)

def layoutInv (gs : Int) (boats : List Boat) : Bool :=
  pairwiseDisjoint boats && boats.all (fun b => inBoundsBoat gs b) && playerInvB gs boats

lemma randint_bounds (g : Rng) (lo hi : Int) (h : lo ≤ hi) :
    lo ≤ (g.randint lo hi).1 ∧ (g.randint lo hi).1 ≤ hi := by
  show lo ≤ lo + ((g.stream g.idx % (hi - lo + 1).toNat : Nat) : Int) ∧
    lo + ((g.stream g.idx % (hi - lo + 1).toNat : Nat) : Int) ≤ hi
  have hpos : 0 < (hi - lo + 1).toNat := by omega
  have hmod := Nat.mod_lt (g.stream g.idx) hpos
  omega

lemma choiceNat_23 (g : Rng) : (g.choiceNat [2, 3]).1 = 2 ∨ (g.choiceNat [2, 3]).1 = 3 := by
  show [2, 3].getD (g.stream g.idx % 2) 0 = 2 ∨ [2, 3].getD (g.stream g.idx % 2) 0 = 3
  have h2 : g.stream g.idx % 2 = 0 ∨ g.stream g.idx % 2 = 1 := by omega
  rcases h2 with h | h <;> rw [h]
  · exact Or.inl rfl
  · exact Or.inr rfl

lemma pairwiseDisjoint_snoc (l : List Boat) (b : Boat) :
    pairwiseDisjoint (l ++ [b]) = true ↔
      (pairwiseDisjoint l = true ∧ ∀ x ∈ l, disjointBoats x b = true) := by
  induction l with
  | nil => simp [pairwiseDisjoint]
  | cons a l ih =>
    simp only [List.cons_append, pairwiseDisjoint, List.append_eq, Bool.and_eq_true,
      List.all_append, List.all_cons, List.all_nil, Bool.and_true, List.mem_cons, ih]
    constructor
    · rintro ⟨⟨ha1, ha2⟩, h3, h4⟩
      refine ⟨⟨ha1, h3⟩, fun x hx => ?_⟩
      rcases hx with rfl | hx
      · exact ha2
      · exact h4 x hx
    · rintro ⟨⟨h1, h3⟩, h2⟩
      exact ⟨⟨h1, h2 a (Or.inl rfl)⟩, h3, fun x hx => h2 x (Or.inr hx)⟩

lemma playerInvB_snoc (gs : Int) (l : List Boat) (b : Boat)
    (hl : playerInvB gs l = true) (hb : b.is_player = false) :
    playerInvB gs (l ++ [b]) = true := by
  cases l with
  | nil => simp [playerInvB] at hl
  | cons p rest =>
    simp only [List.cons_append, playerInvB, Bool.and_eq_true, List.all_append,
      List.all_cons, List.all_nil, Bool.and_true, hb] at hl ⊢
    exact ⟨hl.1, hl.2, rfl⟩

lemma not_overlaps_disjoint (boats : List Boat) (nb : Boat)
    (h : boats.any (fun ex => ex.get_cells.any (fun c => cellMem c nb.get_cells)) = false) :
    ∀ x ∈ boats, disjointBoats x nb = true := by
  intro x hx
  unfold disjointBoats
  rw [List.all_eq_true]
  intro p hp
  have hcp : cellMem p nb.get_cells = false := by
    by_contra hcon
    rw [Bool.not_eq_false] at hcon
    have hany : boats.any (fun ex => ex.get_cells.any (fun c => cellMem c nb.get_cells)) = true :=
      List.any_eq_true.mpr ⟨x, hx, List.any_eq_true.mpr ⟨p, hp, hcon⟩⟩
    rw [h] at hany
    exact absurd hany (by decide)
  rw [hcp]
  rfl

lemma inBoundsBoat_of_bounds (gs : Int) (b : Boat)
    (h : (b.is_horizontal = true ∧ 0 ≤ b.row ∧ b.row < gs ∧ 0 ≤ b.col ∧ b.col + b.length ≤ gs) ∨
      (b.is_horizontal = false ∧ 0 ≤ b.col ∧ b.col < gs ∧ 0 ≤ b.row ∧ b.row + b.length ≤ gs)) :
    inBoundsBoat gs b = true := by
  unfold inBoundsBoat
  rw [List.all_eq_true]
  intro p hp
  rw [mem_get_cells] at hp
  obtain ⟨i, hi, he⟩ := hp
  rw [decide_eq_true_eq]
  rcases h with ⟨hh, h1, h2, h3, h4⟩ | ⟨hh, h1, h2, h3, h4⟩ <;> rw [hh] at he <;>
    simp only [if_true, Bool.false_eq_true, if_false] at he <;> rw [he] <;> dsimp only <;> omega

lemma mkCandidate_spec (gs : Int) (len : Nat) (ho : Bool) (g : Rng)
    (hlen : len = 2 ∨ len = 3) (hgs : 4 ≤ gs) :
    inBoundsBoat gs (mkCandidate gs len ho g).1 = true ∧
      (mkCandidate gs len ho g).1.is_player = false ∧
      (mkCandidate gs len ho g).1.length = len := by
  have hlen4 : (len : Int) ≤ 3 := by rcases hlen with h | h <;> rw [h] <;> decide
  cases ho with
  | true =>
    have hc := randint_bounds g 0 (gs - len) (by omega)
    have hr := randint_bounds (g.randint 0 (gs - (len : Int))).2 0 (gs - 1) (by omega)
    refine ⟨inBoundsBoat_of_bounds gs _ (Or.inl ⟨rfl, ?_, ?_, ?_, ?_⟩), rfl, rfl⟩
    · exact hr.1
    · have := hr.2
      show ((g.randint 0 (gs - (len : Int))).2.randint 0 (gs - 1)).1 < gs
      omega
    · exact hc.1
    · have := hc.2
      show (g.randint 0 (gs - (len : Int))).1 + ((len : Nat) : Int) ≤ gs
      omega
  | false =>
    have hc := randint_bounds g 0 (gs - 1) (by omega)
    have hr := randint_bounds (g.randint 0 (gs - 1)).2 0 (gs - len) (by omega)
    refine ⟨inBoundsBoat_of_bounds gs _ (Or.inr ⟨rfl, ?_, ?_, ?_, ?_⟩), rfl, rfl⟩
    · exact hc.1
    · have := hc.2
      show (g.randint 0 (gs - 1)).1 < gs
      omega
    · exact hr.1
    · have := hr.2
      show ((g.randint 0 (gs - 1)).2.randint 0 (gs - (len : Int))).1 + ((len : Nat) : Int) ≤ gs
      omega

lemma drawBoat_spec (gs : Int) (g : Rng) (hgs : 4 ≤ gs) :
    inBoundsBoat gs (drawBoat gs g).1 = true ∧ (drawBoat gs g).1.is_player = false := by
  have hlen := choiceNat_23 g
  have := mkCandidate_spec gs (g.choiceNat [2, 3]).1
    ((g.choiceNat [2, 3]).2.choiceBool [true, false]).1
    ((((g.choiceNat [2, 3]).2.choiceBool [true, false]).2).next).2 hlen hgs
  exact ⟨this.1, this.2.1⟩

lemma placeStep_inv (gs : Int) (boats : List Boat) (g : Rng) (hgs : 4 ≤ gs)
    (h : layoutInv gs boats = true) : layoutInv gs (placeStep gs boats g).1 = true := by
  unfold placeStep
  by_cases hov : boats.any (fun existing => existing.get_cells.any (fun cell =>
      cellMem cell (drawBoat gs g).1.get_cells)) = true
  · rw [if_pos hov]
    exact h
  · rw [if_neg hov]
    unfold layoutInv at h ⊢
    rw [Bool.and_eq_true, Bool.and_eq_true] at h
    obtain ⟨⟨hpd, hib⟩, hpi⟩ := h
    rw [Bool.and_eq_true, Bool.and_eq_true]
    refine ⟨⟨?_, ?_⟩, ?_⟩
    · exact (pairwiseDisjoint_snoc boats _).mpr
        ⟨hpd, not_overlaps_disjoint boats _ (Bool.eq_false_iff.mpr hov)⟩
    · rw [List.all_append, Bool.and_eq_true]
      refine ⟨hib, ?_⟩
      rw [List.all_cons, List.all_nil, Bool.and_true]
      exact (drawBoat_spec gs g hgs).1
    · exact playerInvB_snoc gs boats _ hpi (drawBoat_spec gs g hgs).2

lemma placeLoop_inv (gs : Int) (num : Nat) (hgs : 4 ≤ gs) :
    ∀ (fuel : Nat) (boats : List Boat) (attempts : Nat) (g : Rng),
      layoutInv gs boats = true →
      layoutInv gs (placeLoop gs num fuel boats attempts g).1 = true := by
  intro fuel
  induction fuel with
  | zero => intro boats attempts g h; exact h
  | succ n ih =>
    intro boats attempts g h
    rw [placeLoop]
    by_cases hlt : boats.length < num
    · rw [if_pos hlt]
      exact ih _ _ _ (placeStep_inv gs boats g hgs h)
    · rw [if_neg hlt]
      exact h

lemma genAttempt_inv (gs : Int) (g : Rng) (hgs : 4 ≤ gs) :
    layoutInv gs (genAttempt gs g).1 = true := by
  have hcol := randint_bounds g 0 (max 0 (gs - 2)) (by omega)
  have hinit : layoutInv gs [⟨gs / 2, (g.randint 0 (max 0 (gs - 2))).1, 2, true, true⟩] = true := by
    unfold layoutInv
    rw [Bool.and_eq_true, Bool.and_eq_true]
    refine ⟨⟨rfl, ?_⟩, ?_⟩
    · rw [List.all_cons, List.all_nil, Bool.and_true]
      refine inBoundsBoat_of_bounds gs _ (Or.inl ⟨rfl, ?_, ?_, ?_, ?_⟩) <;> dsimp only <;> omega
    · simp [playerInvB]
  exact placeLoop_inv gs _ hgs 200 _ 0 _ hinit

lemma gen_loop_inv (solver : List Boat → Int → Int → Bool) (gs : Int)
    (P : List Boat → Prop) (hP : ∀ g, P (genAttempt gs g).1) :
    ∀ (n : Nat) (g : Rng), 0 < n → P ((gen_attempts_loop solver gs n g).1) := by
  intro n
  induction n with
  | zero => intro g h; omega
  | succ m ih =>
    intro g _
    simp only [gen_attempts_loop]
    split
    · exact hP g
    · split
      · exact hP g
      · exact ih _ (by omega)

/-- C3: invariants of every generated state.  For every seed (explicit or
drawn) and every grid size in `[4,10]`, the boat list produced by
`new_game` satisfies: (a) the cell sets of distinct boats are pairwise
disjoint, (b) every boat's cells lie inside `[0,gs) × [0,gs)`, and
(c) boat 0 is the unique player boat, horizontal, of length 2, with
`row = exitRow = gs / 2`. -/
theorem c3_generated_invariants (seedFn : Int → Nat → Nat) (g0 : Rng) (seed : Option Int)
    (gs : Int) (h1 : 4 ≤ gs) (h2 : gs ≤ 10) :
    layoutInv gs (new_game seedFn g0 seed gs).1 = true := by
  cases seed with
  | some s =>
    exact gen_loop_inv is_solvable gs (fun l => layoutInv gs l = true)
      (fun g => genAttempt_inv gs g h1) 5 _ (by omega)
  | none =>
    exact gen_loop_inv is_solvable gs (fun l => layoutInv gs l = true)
      (fun g => genAttempt_inv gs g h1) 5 _ (by omega)

/-- C3 witness: a concrete generated 4-grid satisfies all the invariants. -/
theorem c3_generated_invariants_witness :
    layoutInv 4 (new_game (fun _ _ => 0) (Rng.mk (fun _ => 0) 0) (some 1) 4).1 = true :=
  c3_generated_invariants (fun _ _ => 0) (Rng.mk (fun _ => 0) 0) (some 1) 4
    (by decide) (by decide)
lemma placeLoop_count (gs : Int) (num : Nat) :
    ∀ (fuel : Nat) (boats : List Boat) (attempts : Nat) (g : Rng),
      boats.length ≤ num →
      ((placeLoop gs num fuel boats attempts g).1.length ≤ num ∧
        ((placeLoop gs num fuel boats attempts g).2.1 < attempts + fuel →
          (placeLoop gs num fuel boats attempts g).1.length = num)) := by
  intro fuel
  induction fuel with
  | zero =>
    intro boats attempts g h
    rw [placeLoop]
    dsimp only
    exact ⟨h, fun hc => absurd hc (by omega)⟩
  | succ n ih =>
    intro boats attempts g h
    rw [placeLoop]
    by_cases hlt : boats.length < num
    · rw [if_pos hlt]
      have hps : (placeStep gs boats g).1.length ≤ num := by
        unfold placeStep
        split
        · dsimp only
          omega
        · dsimp only
          rw [List.length_append, List.length_cons, List.length_nil]
          omega
      have hr := ih (placeStep gs boats g).1 (attempts + 1) (placeStep gs boats g).2 hps
      refine ⟨hr.1, fun hc => hr.2 ?_⟩
      have hc2 : (placeLoop gs num n (placeStep gs boats g).1 (attempts + 1)
          (placeStep gs boats g).2).2.1 < attempts + (n + 1) := hc
      omega
    · rw [if_neg hlt]
      dsimp only
      exact ⟨by omega, fun _ => by omega⟩

/-- C8 amended: each generation attempt accepts a candidate only if its
cell set is disjoint from every placed boat's (see `placeStep` and the
disjointness part of C3), and the placement loop stops early exactly when
the *total* boat count (player included) reaches `min(gridSize + 1, 10)`;
so unless the 200-attempt budget is exhausted first, a generated layout
contains `min(gridSize + 1, 10) - 1` obstacle boats, the player making
up the difference. -/
theorem c8_stop_at_total_count (gs : Int) (g : Rng) (h1 : 4 ≤ gs) :
    (genAttempt gs g).1.length ≤ (min (gs + 1) 10).toNat ∧
      ((genAttempt gs g).2.1 < 200 →
        (genAttempt gs g).1.length = (min (gs + 1) 10).toNat) := by
  have hone : (1 : Nat) ≤ (min (gs + 1) 10).toNat := by omega
  have hr := placeLoop_count gs (min (gs + 1) 10).toNat 200
    [⟨gs / 2, (g.randint 0 (max 0 (gs - 2))).1, 2, true, true⟩] 0
    (g.randint 0 (max 0 (gs - 2))).2
    (by rw [List.length_cons, List.length_nil]; omega)
  refine ⟨hr.1, fun hc => hr.2 ?_⟩
  have hc2 : (placeLoop gs (min (gs + 1) 10).toNat 200
      [⟨gs / 2, (g.randint 0 (max 0 (gs - 2))).1, 2, true, true⟩] 0
      (g.randint 0 (max 0 (gs - 2))).2).2.1 < 200 := hc
  omega

/-- C8 amended witness: a concrete 4-grid attempt uses 4 of its 200
placement attempts and ends with 5 = `min(4+1, 10)` boats in total. -/
theorem c8_stop_at_total_count_witness :
    (genAttempt 4 (Rng.mk (fun n =>
        [0, 1,1,0,2,0, 1,1,0,3,0, 0,0,0,0,0, 1,0,0,1,3].getD (n % 21) 0) 0)).1.length ≤
      (min ((4 : Int) + 1) 10).toNat ∧
    ((genAttempt 4 (Rng.mk (fun n =>
        [0, 1,1,0,2,0, 1,1,0,3,0, 0,0,0,0,0, 1,0,0,1,3].getD (n % 21) 0) 0)).2.1 < 200 →
      (genAttempt 4 (Rng.mk (fun n =>
        [0, 1,1,0,2,0, 1,1,0,3,0, 0,0,0,0,0, 1,0,0,1,3].getD (n % 21) 0) 0)).1.length =
        (min ((4 : Int) + 1) 10).toNat) :=
  c8_stop_at_total_count 4 (Rng.mk (fun n =>
    [0, 1,1,0,2,0, 1,1,0,3,0, 0,0,0,0,0, 1,0,0,1,3].getD (n % 21) 0) 0) (by decide)
lemma gen_loop_degraded (solver : List Boat → Int → Int → Bool) (gs : Int) :
    ∀ (n : Nat) (g : Rng), 0 < n →
      (((gen_attempts_loop solver gs n g).2.1 = false ↔
        ∀ k < n, solver (nthAttempt gs g k).1 gs (gs / 2) = false)
      ∧ ((gen_attempts_loop solver gs n g).2.1 = false →
        (gen_attempts_loop solver gs n g).1 = (nthAttempt gs g (n - 1)).1)) := by
  intro n
  induction n with
  | zero => intro g h; omega
  | succ m ih =>
    intro g _
    by_cases hs : solver (genAttempt gs g).1 gs (gs / 2) = true
    · have hres : gen_attempts_loop solver gs (m + 1) g =
          ((genAttempt gs g).1, true, (genAttempt gs g).2.2) := by
        simp only [gen_attempts_loop]
        rw [if_pos hs]
      rw [hres]
      dsimp only
      constructor
      · constructor
        · intro hfalse
          exact absurd hfalse (by decide)
        · intro hall
          have h0 := hall 0 (by omega)
          rw [show nthAttempt gs g 0 = genAttempt gs g from rfl, hs] at h0
          exact absurd h0 (by decide)
      · intro hfalse
        exact absurd hfalse (by decide)
    · cases m with
      | zero =>
        have hres : gen_attempts_loop solver gs 1 g =
            ((genAttempt gs g).1, false, (genAttempt gs g).2.2) := by
          simp only [gen_attempts_loop]
          rw [if_neg hs, if_pos trivial]
        rw [hres]
        dsimp only
        have hs' : solver (genAttempt gs g).1 gs (gs / 2) = false := Bool.eq_false_iff.mpr hs
        constructor
        · constructor
          · intro _ k hk
            have hk0 : k = 0 := by omega
            rw [hk0]
            exact hs'
          · intro _
            rfl
        · intro _
          rfl
      | succ p =>
        have hres : gen_attempts_loop solver gs (p + 1 + 1) g =
            gen_attempts_loop solver gs (p + 1) (genAttempt gs g).2.2 := by
          simp only [gen_attempts_loop]
          rw [if_neg hs, if_neg (by omega)]
        rw [hres]
        have IH := ih (genAttempt gs g).2.2 (by omega)
        have hs' : solver (genAttempt gs g).1 gs (gs / 2) = false := Bool.eq_false_iff.mpr hs
        constructor
        · constructor
          · intro hf k hk
            cases k with
            | zero => exact hs'
            | succ j => exact IH.1.mp hf j (by omega)
          · intro hall
            exact IH.1.mpr (fun j hj => hall (j + 1) (by omega))
        · intro hf
          have := IH.2 hf
          rw [this]
          rfl

/-- C9: degraded generation outcome.  `new_game` is a total function (no
raise, no panic) and when none of the 5 generation attempts produces a
layout accepted by `is_solvable`, it keeps the layout of the 5th (last)
attempt and reports `solvable = false` — exactly the condition under
which the source prints its warning — so the failure is observable in the
resulting state. -/
theorem c9_degraded_outcome (seedFn : Int → Nat → Nat) (g0 : Rng) (s gs : Int) :
    ((new_game seedFn g0 (some s) gs).2.1 = false ↔
      ∀ k < 5, is_solvable (nthAttempt gs (Rng.mk (seedFn s) 0) k).1 gs (gs / 2) = false)
    ∧ ((new_game seedFn g0 (some s) gs).2.1 = false →
      (new_game seedFn g0 (some s) gs).1 = (nthAttempt gs (Rng.mk (seedFn s) 0) 4).1) :=
  gen_loop_degraded is_solvable gs 5 (Rng.mk (seedFn s) 0) (by omega)

/-- C9 witness: a periodic stream whose every attempt yields the same
jammed 4-grid layout (the player is walled in by two vertical yachts
whose every position covers the exit row); all five attempts are
unsolvable, the flag comes back `false`, and the returned boats are the
5th attempt's. -/
theorem c9_degraded_outcome_witness :
    ((new_game (fun _ n => [0, 1,1,0,2,0, 1,1,0,3,0, 0,0,0,0,0, 1,0,0,1,3].getD (n % 21) 0)
        (Rng.mk (fun _ => 0) 0) (some 0) 4).2.1 = false) ∧
    ((new_game (fun _ n => [0, 1,1,0,2,0, 1,1,0,3,0, 0,0,0,0,0, 1,0,0,1,3].getD (n % 21) 0)
        (Rng.mk (fun _ => 0) 0) (some 0) 4).1 =
      (nthAttempt 4 (Rng.mk ((fun (_ : Int) (n : Nat) =>
        [0, 1,1,0,2,0, 1,1,0,3,0, 0,0,0,0,0, 1,0,0,1,3].getD (n % 21) 0) 0) 0) 4).1) := by
  have hflag : (new_game (fun _ n =>
      [0, 1,1,0,2,0, 1,1,0,3,0, 0,0,0,0,0, 1,0,0,1,3].getD (n % 21) 0)
      (Rng.mk (fun _ => 0) 0) (some 0) 4).2.1 = false := by
    rw [new_game_eq_fuel]
    decide
  exact ⟨hflag, (c9_degraded_outcome (fun _ n =>
    [0, 1,1,0,2,0, 1,1,0,3,0, 0,0,0,0,0, 1,0,0,1,3].getD (n % 21) 0)
    (Rng.mk (fun _ => 0) 0) 0 4).2 hflag⟩

end QuasiBoatsSpec
